import Mathlib

/-!
Verification of the process-supervision and streaming-progress tracker of
run-task.py (background task runner).  The Python source is shallowly
embedded: JSON values become an inductive type, the mutable progress
state becomes a structure threaded through pure functions, Python
exceptions become an error component `Option PyErr` (an exception raised
mid-function leaves the partially mutated state visible, as in Python),
and the supervision loop becomes a fuel-indexed recursive function over
an abstract process model.
-/

namespace RunTask

/-- Python exceptions relevant to the embedded code.  `json.JSONDecodeError`
is represented separately (a line that fails `json.loads` is modelled as
`none` below), the others arise from attribute access, bad operand types
and subscripting. -/
inductive PyErr where
  | attributeError
  | typeError
  | keyError
  deriving Repr, DecidableEq

/-- JSON values as produced by `json.loads`.  Numbers are modelled as
integers (token counts and the values the claims depend on are integral);
objects keep their key/value pairs in order, with unique keys as
`json.loads` guarantees. -/
inductive JValue where
  | null
  | bool (b : Bool)
  | num (n : Int)
  | str (s : String)
  | arr (xs : List JValue)
  | obj (kvs : List (String × JValue))
  deriving Repr

/-- Comparison of a Python string with an arbitrary value (`==` in Python
compares across types and is `False` between a `str` and any non-`str`). -/
def jStrEq (s : String) : JValue → Bool
  | .str t => s == t
  | _ => false

/-- Lookup in a Python dict given as a key/value list (`dict.get(k, d)`). -/
def objGetD (kvs : List (String × JValue)) (k : String) (d : JValue) : JValue :=
  match kvs.find? (fun p => p.1 == k) with
  | some p => p.2
  | none => d

/-- `v.get(k, d)` — raises `AttributeError` when `v` is not a dict. -/
def jget (v : JValue) (k : String) (d : JValue) : Except PyErr JValue :=
  match v with
  | .obj kvs => .ok (objGetD kvs k d)
  | _ => .error .attributeError

/-- Does a character list start with the given needle. -/
def listStartsWith : List Char → List Char → Bool
  | [], _ => true
  | _ :: _, [] => false
  | x :: xs, y :: ys => x == y && listStartsWith xs ys

/-- Substring test on character lists (needle first). -/
def listContains (n : List Char) : List Char → Bool
  | [] => n.isEmpty
  | c :: t => listStartsWith n (c :: t) || listContains n t

/-- Python `needle in haystack` for strings. -/
def strContains (h n : String) : Bool :=
  listContains n.toList h.toList

/-- Python `key in v`: dict membership of a key, list membership by
equality, substring test for strings; `TypeError` otherwise. -/
def pyIn (s : String) (v : JValue) : Except PyErr Bool :=
  match v with
  | .obj kvs => .ok (kvs.any (fun p => p.1 == s))
  | .arr xs => .ok (xs.any (jStrEq s))
  | .str t => .ok (strContains t s)
  | _ => .error .typeError

/-- Python subscript `v[k]` with a string key: `KeyError` when a dict
lacks the key, `TypeError` for every non-dict. -/
def pyGetItem (v : JValue) (k : String) : Except PyErr JValue :=
  match v with
  | .obj kvs =>
    match kvs.find? (fun p => p.1 == k) with
    | some p => .ok p.2
    | none => .error .keyError
  | _ => .error .typeError

/-- The value added by `int += v` in Python: ints add directly, bools act
as 0/1, everything else raises `TypeError`. -/
def pyAddInt (v : JValue) : Except PyErr Int :=
  match v with
  | .num n => .ok n
  | .bool b => .ok (if b then 1 else 0)
  | _ => .error .typeError

/-- Python iteration `for x in v`: lists yield elements, strings yield
one-character strings, dicts yield their keys, the rest raise
`TypeError`. -/
def pyIterate : JValue → Except PyErr (List JValue)
  | .arr xs => .ok xs
  | .str s => .ok (s.toList.map (fun c => .str (String.singleton c)))
  | .obj kvs => .ok (kvs.map (fun p => .str p.1))
  | _ => .error .typeError

/-- Python slicing `v[:50]`: defined for strings and lists. -/
def pySlice50 : JValue → Except PyErr JValue
  | .str s => .ok (.str (s.take 50))
  | .arr xs => .ok (.arr (xs.take 50))
  | _ => .error .typeError

/-- Python truthiness. -/
def pyTruthy : JValue → Bool
  | .null => false
  | .bool b => b
  | .num n => n != 0
  | .str s => s != ""
  | .arr xs => !xs.isEmpty
  | .obj kvs => !kvs.isEmpty

mutual
/-- Rendering used by f-string interpolation (`str()`); containers render
via `repr()`.  String escaping inside `repr` is elided — no claim depends
on it. -/
def pyStr : JValue → String
  | .null => "None"
  | .bool b => if b then "True" else "False"
  | .num n => toString n
  | .str s => s
  | .arr xs => "[" ++ pyReprList xs ++ "]"
  | .obj kvs => "\x7b" ++ pyReprKVs kvs ++ "\x7d"

/-- Python `repr()` of a value. -/
def pyRepr : JValue → String
  | .null => "None"
  | .bool b => if b then "True" else "False"
  | .num n => toString n
  | .str s => "\x27" ++ s ++ "\x27"
  | .arr xs => "[" ++ pyReprList xs ++ "]"
  | .obj kvs => "\x7b" ++ pyReprKVs kvs ++ "\x7d"

def pyReprList : List JValue → String
  | [] => ""
  | [x] => pyRepr x
  | x :: y :: t => pyRepr x ++ ", " ++ pyReprList (y :: t)

def pyReprKVs : List (String × JValue) → String
  | [] => ""
  | [p] => "\x27" ++ p.1 ++ "\x27: " ++ pyRepr p.2
  | p :: q :: t => "\x27" ++ p.1 ++ "\x27: " ++ pyRepr p.2 ++ ", " ++ pyReprKVs (q :: t)
end

/-- `fp.split("/")[-1]`. -/
def baseName (fp : String) : String :=
  (fp.splitOn "/").getLastD ""

/-- Python `str.lower()` (ASCII case mapping, which covers the tool names
the source compares against). -/
def pyLower (s : String) : String :=
  String.mk (s.toList.map Char.toLower)

/-- The mutable activity-tracking dict created in `main` (source lines
364-372), as a structure.  `output_tokens` is an `Int` because Python
ints are unbounded and signed; `last_event_time` is the wall clock as a
rational. -/
structure PState where
  tool_calls : Int
  files_written : List String
  last_activity : String
  session_id : Option JValue
  last_event_time : Rat
  output_tokens : Int
  chunks_since_heartbeat : Int
  deriving Repr

/-- Initial progress state; `t0` is `time.time()` at creation. -/
def init_state (t0 : Rat) : PState :=
  { tool_calls := 0
    files_written := []
    last_activity := ""
    session_id := none
    last_event_time := t0
    output_tokens := 0
    chunks_since_heartbeat := 0 }

/-- `if "output_tokens" in usage: state["output_tokens"] += usage["output_tokens"]`
— shared by the `message_delta` branch (source lines 242-244) and the
assistant-message branch (lines 248-250). -/
def addOutputTokens (usage : JValue) (st : PState) : PState × Option PyErr :=
  match pyIn "output_tokens" usage with
  | .error e => (st, some e)
  | .ok false => (st, none)
  | .ok true =>
    match pyGetItem usage "output_tokens" with
    | .error e => (st, some e)
    | .ok v =>
      match pyAddInt v with
      | .error e => (st, some e)
      | .ok d => ({ st with output_tokens := st.output_tokens + d }, none)

/-- Session-id capture from the `init` system event (source lines 219-222).
No operation here can raise: `data` is already known to be a dict. -/
def phaseInit (kvs : List (String × JValue)) (msg_type : JValue) (st : PState) : PState :=
  if jStrEq "system" msg_type && jStrEq "init" (objGetD kvs "subtype" .null) then
    let session_id := objGetD kvs "session_id" .null
    if pyTruthy session_id then { st with session_id := some session_id } else st
  else st

/-- Content-block event chain on the (possibly unwrapped) inner event
(source lines 226-244).  `inner` is a dict by the time this runs. -/
def phaseBlocks (inner : List (String × JValue)) (inner_type : JValue) (st : PState) :
    PState × Option PyErr :=
  if jStrEq "content_block_start" inner_type then
    match objGetD inner "content_block" (.obj []) with
    | .obj cb =>
      let cbt := objGetD cb "type" .null
      if jStrEq "tool_use" cbt then
        ({ st with last_activity :=
             "▶️ " ++ pyStr (objGetD cb "name" (.str "?")) ++ " starting..." }, none)
      else if jStrEq "thinking" cbt then
        ({ st with last_activity := "🧠 Thinking..." }, none)
      else (st, none)
    | _ => (st, some .attributeError)
  else if jStrEq "content_block_delta" inner_type then
    let st := { st with chunks_since_heartbeat := st.chunks_since_heartbeat + 1 }
    match objGetD inner "delta" (.obj []) with
    | .obj dl =>
      let dt := objGetD dl "type" .null
      if jStrEq "thinking_delta" dt then
        ({ st with last_activity := "🧠 Thinking..." }, none)
      else if jStrEq "text_delta" dt then
        ({ st with last_activity := "✍️ Writing..." }, none)
      else (st, none)
    | _ => (st, some .attributeError)
  else if jStrEq "content_block_stop" inner_type then
    (st, none)
  else if jStrEq "message_delta" inner_type then
    addOutputTokens (objGetD inner "usage" (.obj [])) st
  else (st, none)

/-- One content block of an assistant message (source lines 253-272). -/
def processBlock (b : JValue) (st : PState) : PState × Option PyErr :=
  match b with
  | .obj bl =>
    if jStrEq "tool_use" (objGetD bl "type" .null) then
      let st := { st with tool_calls := st.tool_calls + 1 }
      let nameV := objGetD bl "name" (.str "?")
      let inputV := objGetD bl "input" (.obj [])
      match nameV with
      | .str tool_name =>
        let lower := pyLower tool_name
        if lower == "write" || lower == "edit" then
          match jget inputV "file_path" (.str "?") with
          | .ok (.str fp) =>
            ({ st with files_written := st.files_written ++ [baseName fp],
                       last_activity := "📝 " ++ tool_name ++ ": " ++ baseName fp }, none)
          | .ok _ => (st, some .attributeError)
          | .error e => (st, some e)
        else if lower == "read" then
          match jget inputV "file_path" (.str "?") with
          | .ok (.str fp) =>
            ({ st with last_activity := "👁 read: " ++ baseName fp }, none)
          | .ok _ => (st, some .attributeError)
          | .error e => (st, some e)
        else if lower == "bash" then
          match jget inputV "command" (.str "?") with
          | .ok cv =>
            match pySlice50 cv with
            | .ok cmd => ({ st with last_activity := "💻 bash: " ++ pyStr cmd }, none)
            | .error e => (st, some e)
          | .error e => (st, some e)
        else if strContains lower "search" || strContains lower "grep" then
          ({ st with last_activity := "🔍 " ++ tool_name }, none)
        else
          ({ st with last_activity := "🔧 " ++ tool_name }, none)
      | _ => (st, some .attributeError)
    else (st, none)
  | _ => (st, some .attributeError)

/-- The `for block in content` loop; an exception aborts the loop but the
mutations already made stay. -/
def processBlocks : List JValue → PState → PState × Option PyErr
  | [], st => (st, none)
  | b :: rest, st =>
    match processBlock b st with
    | (st1, none) => processBlocks rest st1
    | (st1, some e) => (st1, some e)

/-- Assistant-message and result branches (source lines 246-275). -/
def phaseTail (kvs : List (String × JValue)) (msg_type : JValue) (st : PState) :
    PState × Option PyErr :=
  if jStrEq "assistant" msg_type && kvs.any (fun p => p.1 == "message") then
    match objGetD kvs "message" (.obj []) with
    | .obj msg =>
      match addOutputTokens (objGetD msg "usage" (.obj [])) st with
      | (st1, some e) => (st1, some e)
      | (st1, none) =>
        let content := objGetD msg "content" (.arr [])
        match pyIterate content with
        | .error e => (st1, some e)
        | .ok blocks => processBlocks blocks st1
    | _ => (st, some .attributeError)
  else if jStrEq "result" msg_type then
    ({ st with last_activity := "✅ finishing..." }, none)
  else (st, none)

/-- Body of the `try` in `parse_stream_line` after `json.loads` succeeded
(source lines 205-275).  The liveness timestamp is written after the
first `data.get` (so a non-dict line raises before updating it), the
envelope is unwrapped, then the three phases run in source order. -/
def parseBody (data : JValue) (now : Rat) (st : PState) : PState × Option PyErr :=
  match data with
  | .obj kvs =>
    let msg_type := objGetD kvs "type" (.str "")
    let st1 := { st with last_event_time := now }
    match (if jStrEq "stream_event" msg_type then
             match objGetD kvs "event" (.obj []) with
             | .obj evs => .ok (evs, objGetD evs "type" (.str ""))
             | _ => .error PyErr.attributeError
           else .ok (kvs, msg_type) : Except PyErr (List (String × JValue) × JValue)) with
    | .error e => (st1, some e)
    | .ok (inner, inner_type) =>
      let st2 := phaseInit kvs msg_type st1
      match phaseBlocks inner inner_type st2 with
      | (st3, some e) => (st3, some e)
      | (st3, none) => phaseTail kvs msg_type st3
  | _ => (st, some .attributeError)

/-- `parse_stream_line` (source lines 202-278).  The input is the result
of `json.loads` on the line (`none` when decoding fails); the outer
`except (json.JSONDecodeError, KeyError)` swallows exactly those two
exception kinds, everything else escapes to the caller. -/
def parse_stream_line (line : Option JValue) (now : Rat) (st : PState) :
    PState × Option PyErr :=
  match line with
  | none => (st, none)
  | some data =>
    match parseBody data now st with
    | (st1, some .keyError) => (st1, none)
    | r => r

/-- The reader thread's successive calls: each line is parsed with the
wall-clock value at its arrival; exceptions kill the reader thread but
the state mutations made so far stay (daemon thread, mutation in place). -/
def parseStates : List (Option JValue × Rat) → PState → List PState
  | [], st => [st]
  | (l, t) :: rest, st => st :: parseStates rest (parse_stream_line l t st).1

/-- Round `a / b` to the nearest integer, ties to even (`b > 0`); this is
both IEEE-754 rounding of an exact quotient and the rounding used by
Python float formatting. -/
def rne (a b : Nat) : Nat :=
  if 2 * (a % b) < b then a / b
  else if b < 2 * (a % b) then a / b + 1
  else if (a / b) % 2 = 0 then a / b else a / b + 1

/-- The value printed by `f"{n/1000:.1f}"` for `1000 ≤ n ≤ 9999`, in
tenths, with the two roundings Python performs made exact: `n/1000` is
the correctly rounded binary double of the rational (53-bit mantissa
`m`, exponent `e ∈ [0,3]` since `1 ≤ n/1000 < 10`), and `%.1f` rounds
that double to one decimal digit, ties to even.  Checked exhaustively
against CPython output for every `n` in range. -/
def tenths (n : Nat) : Nat :=
  let e : Nat := if n < 2000 then 0 else if n < 4000 then 1 else if n < 8000 then 2 else 3
  let m := rne (n * 2 ^ (52 - e)) 1000
  rne (m * 10) (2 ^ (52 - e))

/-- The middle branch `f"{n/1000:.1f}K"` of `format_tokens`. -/
def fmt_one_decimal (n : Nat) : String :=
  toString (tenths n / 10) ++ "." ++ toString (tenths n % 10) ++ "K"

/-- `format_tokens` (source lines 192-199): raw below 1000, one decimal
in thousands below 10000, floor-divided thousands above. -/
def format_tokens (n : Int) : String :=
  if n < 1000 then toString n
  else if n < 10000 then fmt_one_decimal n.toNat
  else toString (n / 1000) ++ "K"

/-- Tier-1 body for one parsed line of the final-text extraction (source
lines 455-459): `data.get("type")` raises on non-dicts; a `result` event
yields `data.get("result", "")` and breaks the loop. -/
def tier1Line (data : JValue) : Except PyErr (Option JValue) :=
  match jget data "type" .null with
  | .error e => .error e
  | .ok ty =>
    if jStrEq "result" ty then
      match jget data "result" (.str "") with
      | .error e => .error e
      | .ok r => .ok (some r)
    else .ok none

/-- Tier-1 loop (source lines 454-461): unparseable lines and `KeyError`
are swallowed per line, other exceptions escape; the first `result`
event wins (the loop `break`s). -/
def tier1 : List (Option JValue) → Except PyErr JValue
  | [] => .ok (.str "")
  | none :: rest => tier1 rest
  | some data :: rest =>
    match tier1Line data with
    | .ok (some r) => .ok r
    | .ok none => tier1 rest
    | .error .keyError => tier1 rest
    | .error e => .error e

/-- `final_text += block.get("text", "") + "\n"`: the fragment must be a
string (`str + str`), and the accumulator must be a string too. -/
def pyAppendFragment (acc : JValue) (t : JValue) : Except PyErr JValue :=
  match t, acc with
  | .str ts, .str accs => .ok (.str (accs ++ ts ++ "\n"))
  | _, _ => .error .typeError

/-- Tier-2 body for one parsed line (source lines 466-470): text blocks
of assistant messages are appended to the accumulator in order. -/
def tier2Line (data : JValue) (acc : JValue) : Except PyErr JValue :=
  match jget data "type" .null with
  | .error e => .error e
  | .ok ty =>
    if jStrEq "assistant" ty then
      match jget data "message" (.obj []) with
      | .error e => .error e
      | .ok msg =>
        match jget msg "content" (.arr []) with
        | .error e => .error e
        | .ok content =>
          match pyIterate content with
          | .error e => .error e
          | .ok blocks =>
            blocks.foldlM (fun a block =>
              match jget block "type" .null with
              | .error e => .error e
              | .ok bt =>
                if jStrEq "text" bt then
                  match jget block "text" (.str "") with
                  | .error e => .error e
                  | .ok t => pyAppendFragment a t
                else .ok a) acc
    else .ok acc

/-- Tier-2 loop (source lines 464-472), same per-line exception handling
as tier 1. -/
def tier2 : List (Option JValue) → JValue → Except PyErr JValue
  | [], acc => .ok acc
  | none :: rest, acc => tier2 rest acc
  | some data :: rest, acc =>
    match tier2Line data acc with
    | .ok acc1 => tier2 rest acc1
    | .error .keyError => tier2 rest acc
    | .error e => .error e

/-- The three-tier final-text extraction of `main` (source lines 453-475):
first `result` event if truthy, else concatenated assistant fragments if
truthy, else the error stream or the literal placeholder. -/
def extract_final_text (lines : List (Option JValue)) (stderr_output : String) :
    Except PyErr JValue :=
  match tier1 lines with
  | .error e => .error e
  | .ok f1 =>
    match (if pyTruthy f1 then .ok f1 else tier2 lines f1 : Except PyErr JValue) with
    | .error e => .error e
    | .ok f2 =>
      if pyTruthy f2 then .ok f2
      else .ok (.str (if stderr_output != "" then stderr_output else "(no output captured)"))

/-- Splitting a character list on a separator character (no separators
dropped, empty parts kept), the semantics of Python `str.split(":")`. -/
def splitChar (c : Char) : List Char → List (List Char)
  | [] => [[]]
  | x :: xs =>
    let r := splitChar c xs
    if x == c then [] :: r
    else
      match r with
      | h :: t => (x :: h) :: t
      | [] => [[x]]

/-- Python `sk.split(":")`; character 58 is the colon. -/
def pySplitColon (sk : String) : List String :=
  (splitChar (Char.ofNat 58) sk.toList).map String.mk

/-- `extract_group_jid` (source lines 143-150): the first colon-separated
part of the session key containing "@g.us". -/
def extract_group_jid (session_key : Option String) : Option String :=
  match session_key with
  | none => none
  | some sk =>
    if sk == "" then none
    else (pySplitColon sk).find? (fun part => strContains part "@g.us")

/-- Truthiness of an optional string argument (Python `None` and `""` are
both falsy). -/
def optTruthy : Option String → Bool
  | none => false
  | some s => s != ""

/-- Signals sent by `kill_process_graceful` (source lines 179-189):
SIGTERM, a grace wait of 10s, then SIGKILL only when the process is
still alive. -/
inductive KillAction where
  | sigterm
  | sigkill
  deriving Repr, DecidableEq

/-- `kill_process_graceful`, abstracted over whether the subprocess exits
within the grace period after SIGTERM. -/
def kill_process_graceful (exitsWithinGrace : Bool) : List KillAction :=
  if exitsWithinGrace then [.sigterm] else [.sigterm, .sigkill]

/-- Registry status classification (source line 492; the status glyph of
line 486 follows the same branching): the timeout flag takes precedence
over the exit code. -/
def session_status (timed_out : Bool) (exit_code : Int) : String :=
  if timed_out then "timeout" else if exit_code = 0 then "completed" else "failed"

/-- Observable state of the polling loop of `main` (source lines 374-432). -/
structure LoopState where
  elapsed : Nat
  last_heartbeat : Nat
  timed_out : Bool
  heartbeats : List Nat
  killActions : List KillAction
  exit_code : Option Int
  deriving Repr, DecidableEq

def initLoopState : LoopState :=
  { elapsed := 0, last_heartbeat := 0, timed_out := false,
    heartbeats := [], killActions := [], exit_code := none }

/-- The supervision loop (source lines 391-432) in an idealized time
model: each `time.sleep(5)` advances elapsed time by exactly 5 seconds
and the loop body itself is instantaneous.  `pollAt e` is the subprocess
poll result at elapsed time `e` (`none` while running), `hbEnabled` is
the truthiness of `group_jid and token`, `termExitsInGrace` abstracts the
subprocess reaction to SIGTERM, and `fuel` bounds the number of
iterations (the theorems supply enough fuel to cover the run). -/
def mainLoop (timeout : Nat) (hbEnabled : Bool) (pollAt : Nat → Option Int)
    (termExitsInGrace : Bool) : Nat → LoopState → LoopState
  | 0, s => s
  | fuel + 1, s =>
    match pollAt s.elapsed with
    | some c => { s with exit_code := some c }
    | none =>
      let e := s.elapsed + 5
      if timeout ≤ e then
        { s with elapsed := e, timed_out := true,
                 killActions := kill_process_graceful termExitsInGrace }
      else if 60 ≤ e - s.last_heartbeat && hbEnabled then
        mainLoop timeout hbEnabled pollAt termExitsInGrace fuel
          { s with elapsed := e, last_heartbeat := e, heartbeats := s.heartbeats ++ [e] }
      else
        mainLoop timeout hbEnabled pollAt termExitsInGrace fuel { s with elapsed := e }

/-- Python truncation `int(x)` toward zero. -/
def pyTrunc (q : Rat) : Int :=
  q.num / (q.den : Int)

/-- The heartbeat status line rendered at elapsed time `e` from a
snapshot of the shared progress state (source lines 405-429).  The
concurrent snapshot itself is abstract: the reader thread may be
mutating the dict while these fields are read. -/
def heartbeat_line (st : PState) (elapsed : Nat) (idle_secs : Rat) : String :=
  let mins := elapsed / 60
  let status := if idle_secs < 30 then "🟢" else if idle_secs < 120 then "🟡" else "🔴"
  let parts := [status ++ " CC (" ++ toString mins ++ "min)"]
  let parts := if st.output_tokens > 0 then parts ++ [format_tokens st.output_tokens ++ " tok"]
               else parts
  let parts := if st.tool_calls > 0 then parts ++ [toString st.tool_calls ++ " calls"]
               else parts
  let parts :=
    if idle_secs > 120 then
      parts ++ ["🧠 Thinking... (" ++ toString (pyTrunc idle_secs) ++ "s)"]
    else if idle_secs > 15 && st.chunks_since_heartbeat == 0 then
      parts ++ ["🧠 Thinking..."]
    else if st.last_activity != "" then
      parts ++ [st.last_activity ++ (if st.chunks_since_heartbeat > 0 then " ✍️" else "")]
    else parts
  String.intercalate " | " parts

/-- The messages sent for a list of heartbeat emission times, given the
(abstract, concurrently mutated) state snapshot observed at each time. -/
def heartbeat_messages (snapshot : Nat → PState) (hbs : List Nat) : List String :=
  hbs.map (fun e => heartbeat_line (snapshot e) e ((e : Rat) - (snapshot e).last_event_time))

/-- Inputs of the post-loop phase of `main` (source lines 434-537). -/
structure PostConfig where
  resume : Option String
  session : Option String
  token : Option String
  group_jid : Option String
  stderr_output : String
  output_lines : List (Option JValue)
  timed_out : Bool
  exit_code : Int
  session_id : Option JValue

/-- Observable effects of the post-loop phase. -/
structure PostResult where
  resume_failure_notifications : Nat
  extraction_done : Bool
  registry_written : Bool
  registry_status : Option String
  result_notifications : Nat
  crashed : Bool
  final_text : Option String
  deriving Repr, DecidableEq

/-- The post-loop phase of `main` (source lines 441-537): the
resume-not-found short circuit, then extraction, the output-file write
(which crashes on a non-string result, reaching the top-level handler),
the conditional registry write keyed on a truthy captured session id, and
the single terminal notification.  Network and file effects are recorded
as counts/flags. -/
def post_run (cfg : PostConfig) : PostResult :=
  if optTruthy cfg.resume && cfg.stderr_output != ""
       && strContains cfg.stderr_output "No conversation found" then
    { resume_failure_notifications :=
        if optTruthy cfg.session && optTruthy cfg.token && optTruthy cfg.group_jid then 1 else 0
      extraction_done := false
      registry_written := false
      registry_status := none
      result_notifications := 0
      crashed := false
      final_text := none }
  else
    match extract_final_text cfg.output_lines cfg.stderr_output with
    | .ok (.str s) =>
      let registry := match cfg.session_id with
        | some sid => pyTruthy sid
        | none => false
      { resume_failure_notifications := 0
        extraction_done := true
        registry_written := registry
        registry_status := if registry then some (session_status cfg.timed_out cfg.exit_code)
                           else none
        result_notifications := if optTruthy cfg.session && optTruthy cfg.token then 1 else 0
        crashed := false
        final_text := some s }
    | _ =>
      -- extraction raised, or `Path.write_text` got a non-string: the
      -- top-level except of main takes over (crash notification path).
      { resume_failure_notifications := 0
        extraction_done := true
        registry_written := false
        registry_status := none
        result_notifications := 0
        crashed := true
        final_text := none }

/-! ### Helper lemmas: token formatting -/

/-- Round-to-nearest lands within half a denominator of the true value. -/
theorem rne_close (a b : Nat) (hb : 0 < b) :
    2 * (rne a b * b) ≤ 2 * a + b ∧ 2 * a ≤ 2 * (rne a b * b) + b := by
  have hdm : b * (a / b) + a % b = a := Nat.div_add_mod a b
  have hlt : a % b < b := Nat.mod_lt a hb
  have hc1 : a / b * b = b * (a / b) := Nat.mul_comm _ _
  have hc2 : (a / b + 1) * b = b * (a / b) + b := by ring
  unfold rne
  split
  · omega
  · split
    · omega
    · split <;> omega

/-- The rendered tenths value is within 0.05 of `n/1000` (in integer form:
`|tenths n * 100 - n| ≤ 50`). -/
theorem tenths_close (n : Nat) (_h1 : 1000 ≤ n) (_h2 : n < 10000) :
    tenths n * 100 ≤ n + 50 ∧ n ≤ tenths n * 100 + 50 := by
  unfold tenths
  by_cases hA : n < 2000
  · simp only [if_pos hA]
    have hm := rne_close (n * 2 ^ (52 - 0)) 1000 (by norm_num)
    have ht := rne_close (rne (n * 2 ^ (52 - 0)) 1000 * 10) (2 ^ (52 - 0)) (by positivity)
    omega
  · by_cases hB : n < 4000
    · simp only [if_neg hA, if_pos hB]
      have hm := rne_close (n * 2 ^ (52 - 1)) 1000 (by norm_num)
      have ht := rne_close (rne (n * 2 ^ (52 - 1)) 1000 * 10) (2 ^ (52 - 1)) (by positivity)
      omega
    · by_cases hC : n < 8000
      · simp only [if_neg hA, if_neg hB, if_pos hC]
        have hm := rne_close (n * 2 ^ (52 - 2)) 1000 (by norm_num)
        have ht := rne_close (rne (n * 2 ^ (52 - 2)) 1000 * 10) (2 ^ (52 - 2)) (by positivity)
        omega
      · simp only [if_neg hA, if_neg hB, if_neg hC]
        have hm := rne_close (n * 2 ^ (52 - 3)) 1000 (by norm_num)
        have ht := rne_close (rne (n * 2 ^ (52 - 3)) 1000 * 10) (2 ^ (52 - 3)) (by positivity)
        omega

/-! ### Helper lemmas: supervision loop -/

/-- Once the loop decides to time out it records the flag and the
graceful-kill sequence, for any process that never exits on its own. -/
theorem mainLoop_timeout_aux (timeout : Nat) (hb : Bool) (pollAt : Nat → Option Int)
    (tg : Bool) (hrun : ∀ e, pollAt e = none) :
    ∀ fuel s, s.timed_out = false → s.elapsed < timeout → timeout ≤ s.elapsed + 5 * fuel →
      (mainLoop timeout hb pollAt tg fuel s).timed_out = true ∧
      (mainLoop timeout hb pollAt tg fuel s).killActions = kill_process_graceful tg := by
  intro fuel
  induction fuel with
  | zero => intro s h1 h2 h3; omega
  | succ k ih =>
    intro s h1 h2 h3
    unfold mainLoop
    rw [hrun s.elapsed]
    by_cases hto : timeout ≤ s.elapsed + 5
    · simp only [hto, if_pos]
      simp
    · simp only [if_neg hto]
      by_cases hhb : (60 ≤ s.elapsed + 5 - s.last_heartbeat && hb) = true
      · rw [if_pos hhb]
        refine ih _ h1 ?_ ?_
        · show s.elapsed + 5 < timeout
          omega
        · show timeout ≤ s.elapsed + 5 + 5 * k
          omega
      · rw [if_neg hhb]
        refine ih _ h1 ?_ ?_
        · show s.elapsed + 5 < timeout
          omega
        · show timeout ≤ s.elapsed + 5 + 5 * k
          omega

/-- With heartbeats disabled the loop never emits one. -/
theorem mainLoop_no_hb (timeout : Nat) (pollAt : Nat → Option Int) (tg : Bool) :
    ∀ fuel s, (mainLoop timeout false pollAt tg fuel s).heartbeats = s.heartbeats := by
  intro fuel
  induction fuel with
  | zero => intro s; rfl
  | succ k ih =>
    intro s
    unfold mainLoop
    cases pollAt s.elapsed with
    | some c => rfl
    | none =>
      by_cases hto : timeout ≤ s.elapsed + 5
      · simp only [if_pos hto]
      · simp only [if_neg hto, Bool.and_false, Bool.false_eq_true, if_false,
                   decide_eq_true_eq]
        exact ih _

/-- The control-flow outcome of the loop. -/
def loopOutcome (r : LoopState) : Nat × Bool × List KillAction × Option Int :=
  (r.elapsed, r.timed_out, r.killActions, r.exit_code)

/-- The control-flow outcome of the loop (elapsed time, timeout flag,
kill actions, exit code) does not depend on whether heartbeats are
enabled nor on the heartbeat bookkeeping fields: heartbeat emission only
touches `last_heartbeat` and the emission log. -/
theorem mainLoop_outcome_indep (timeout : Nat) (pollAt : Nat → Option Int) (tg : Bool)
    (b1 b2 : Bool) :
    ∀ fuel el lh1 lh2 to_ hbs1 hbs2 ka xc,
      loopOutcome (mainLoop timeout b1 pollAt tg fuel ⟨el, lh1, to_, hbs1, ka, xc⟩)
        = loopOutcome (mainLoop timeout b2 pollAt tg fuel ⟨el, lh2, to_, hbs2, ka, xc⟩) := by
  intro fuel
  induction fuel with
  | zero => intro el lh1 lh2 to_ hbs1 hbs2 ka xc; rfl
  | succ k ih =>
    intro el lh1 lh2 to_ hbs1 hbs2 ka xc
    show loopOutcome
        (match pollAt el with
         | some c => { elapsed := el, last_heartbeat := lh1, timed_out := to_,
                       heartbeats := hbs1, killActions := ka, exit_code := some c }
         | none =>
           if timeout ≤ el + 5 then
             { elapsed := el + 5, last_heartbeat := lh1, timed_out := true,
               heartbeats := hbs1, killActions := kill_process_graceful tg, exit_code := xc }
           else if 60 ≤ el + 5 - lh1 && b1 then
             mainLoop timeout b1 pollAt tg k
               ⟨el + 5, el + 5, to_, hbs1 ++ [el + 5], ka, xc⟩
           else mainLoop timeout b1 pollAt tg k ⟨el + 5, lh1, to_, hbs1, ka, xc⟩)
      = loopOutcome
        (match pollAt el with
         | some c => { elapsed := el, last_heartbeat := lh2, timed_out := to_,
                       heartbeats := hbs2, killActions := ka, exit_code := some c }
         | none =>
           if timeout ≤ el + 5 then
             { elapsed := el + 5, last_heartbeat := lh2, timed_out := true,
               heartbeats := hbs2, killActions := kill_process_graceful tg, exit_code := xc }
           else if 60 ≤ el + 5 - lh2 && b2 then
             mainLoop timeout b2 pollAt tg k
               ⟨el + 5, el + 5, to_, hbs2 ++ [el + 5], ka, xc⟩
           else mainLoop timeout b2 pollAt tg k ⟨el + 5, lh2, to_, hbs2, ka, xc⟩)
    cases hp : pollAt el with
    | some c => rfl
    | none =>
      by_cases hto : timeout ≤ el + 5
      · simp only [if_pos hto]; rfl
      · simp only [if_neg hto]
        by_cases hb1 : (60 ≤ el + 5 - lh1 && b1) = true
        · rw [if_pos hb1]
          by_cases hb2 : (60 ≤ el + 5 - lh2 && b2) = true
          · rw [if_pos hb2]; exact ih _ _ _ _ _ _ _ _
          · rw [if_neg hb2]; exact ih _ _ _ _ _ _ _ _
        · rw [if_neg hb1]
          by_cases hb2 : (60 ≤ el + 5 - lh2 && b2) = true
          · rw [if_pos hb2]; exact ih _ _ _ _ _ _ _ _
          · rw [if_neg hb2]; exact ih _ _ _ _ _ _ _ _

/-! ### Helper lemmas: result extraction -/

/-- Lines the tier-1 scan passes over without effect: unparseable lines
and JSON objects whose `type` is not `"result"`. -/
def tier1Skips : Option JValue → Bool
  | none => true
  | some (.obj kvs) => !(jStrEq "result" (objGetD kvs "type" .null))
  | some _ => false

theorem tier1_append (pre rest : List (Option JValue))
    (hpre : ∀ l ∈ pre, tier1Skips l = true) :
    tier1 (pre ++ rest) = tier1 rest := by
  induction pre with
  | nil => rfl
  | cons l t ih =>
    have hl := hpre l (by simp)
    have ht : ∀ x ∈ t, tier1Skips x = true := fun x hx => hpre x (by simp [hx])
    cases l with
    | none => simpa [tier1] using ih ht
    | some d =>
      cases d with
      | obj kvs =>
        simp only [tier1Skips, Bool.not_eq_true'] at hl
        simpa [tier1, tier1Line, jget, hl] using ih ht
      | null => simp [tier1Skips] at hl
      | bool b => simp [tier1Skips] at hl
      | num n => simp [tier1Skips] at hl
      | str s => simp [tier1Skips] at hl
      | arr xs => simp [tier1Skips] at hl

theorem tier1_result_head (kvs : List (String × JValue)) (rest : List (Option JValue))
    (hty : jStrEq "result" (objGetD kvs "type" .null) = true) :
    tier1 (some (.obj kvs) :: rest) = .ok (objGetD kvs "result" (.str "")) := by
  simp [tier1, tier1Line, jget, hty]

theorem pyTruthy_str_iff (s : String) : pyTruthy (.str s) = true ↔ s ≠ "" := by
  simp [pyTruthy]

/-- The extraction never produces the empty string: tier 1 and tier 2
results are kept only when truthy, and tier 3 substitutes a non-empty
string. -/
theorem extract_final_text_ne_empty (lines : List (Option JValue)) (stderr : String) :
    extract_final_text lines stderr ≠ .ok (.str "") := by
  unfold extract_final_text
  cases h1 : tier1 lines with
  | error e => simp
  | ok f1 =>
    by_cases ht1 : pyTruthy f1 = true
    · simp only [if_pos ht1]
      intro hc
      rw [Except.ok.injEq] at hc
      rw [hc] at ht1
      simp [pyTruthy] at ht1
    · simp only [if_neg ht1]
      cases h2 : tier2 lines f1 with
      | error e => simp
      | ok f2 =>
        show (if pyTruthy f2 = true then Except.ok f2
              else .ok (.str (if (stderr != "") = true then stderr
                              else "(no output captured)")))
            ≠ Except.ok (JValue.str "")
        by_cases ht2 : pyTruthy f2 = true
        · rw [if_pos ht2]
          intro hc
          rw [Except.ok.injEq] at hc
          rw [hc] at ht2
          simp [pyTruthy] at ht2
        · rw [if_neg ht2]
          intro hc
          rw [Except.ok.injEq, JValue.str.injEq] at hc
          by_cases hs : stderr = ""
          · rw [hs] at hc
            simp at hc
          · simp [hs] at hc

/-! ### Well-shaped event lines (sufficient condition for the parser not
to raise) and non-negative token deltas -/

def isObjB : JValue → Bool
  | .obj _ => true
  | _ => false

/-- A usage value the token-accumulation step survives: a dict whose
`output_tokens` entry, when present, is an int or a bool. -/
def wsUsage : JValue → Bool
  | .obj kvs =>
    match kvs.find? (fun p => p.1 == "output_tokens") with
    | some (_, .num _) => true
    | some (_, .bool _) => true
    | some _ => false
    | none => true
  | _ => false

/-- A content block the assistant-branch loop survives: a dict; when it
is a `tool_use` block its name must be a string, and the tool input must
be a dict with string paths / string-or-list command for the tools whose
input fields the code slices or splits. -/
def wsBlock : JValue → Bool
  | .obj bl =>
    if jStrEq "tool_use" (objGetD bl "type" .null) then
      match objGetD bl "name" (.str "?") with
      | .str tool_name =>
        let lower := pyLower tool_name
        if lower == "write" || lower == "edit" || lower == "read" then
          match objGetD bl "input" (.obj []) with
          | .obj ti =>
            match objGetD ti "file_path" (.str "?") with
            | .str _ => true
            | _ => false
          | _ => false
        else if lower == "bash" then
          match objGetD bl "input" (.obj []) with
          | .obj ti =>
            match objGetD ti "command" (.str "?") with
            | .str _ => true
            | .arr _ => true
            | _ => false
          | _ => false
        else true
      | _ => false
    else true
  | _ => false

/-- Shape requirements of the content-block chain for a given inner
event type. -/
def wsInner (inner : List (String × JValue)) (inner_type : JValue) : Bool :=
  if jStrEq "content_block_start" inner_type then
    isObjB (objGetD inner "content_block" (.obj []))
  else if jStrEq "content_block_delta" inner_type then
    isObjB (objGetD inner "delta" (.obj []))
  else if jStrEq "message_delta" inner_type then
    wsUsage (objGetD inner "usage" (.obj []))
  else true

/-- Shape requirements of the assistant-message branch. -/
def wsTail (kvs : List (String × JValue)) (msg_type : JValue) : Bool :=
  if jStrEq "assistant" msg_type && kvs.any (fun p => p.1 == "message") then
    match objGetD kvs "message" (.obj []) with
    | .obj msg =>
      wsUsage (objGetD msg "usage" (.obj [])) &&
      (match objGetD msg "content" (.arr []) with
       | .arr blocks => blocks.all wsBlock
       | _ => false)
    | _ => false
  else true

/-- A sufficient shape condition under which `parse_stream_line` raises
nothing: the line is a JSON object, the envelope payload (when the line
is a `stream_event`) is an object, and the fields each taken branch
accesses as dicts/strings have those shapes. -/
def wellShapedLine : JValue → Bool
  | .obj kvs =>
    (if jStrEq "stream_event" (objGetD kvs "type" (.str "")) then
       match objGetD kvs "event" (.obj []) with
       | .obj evs => wsInner evs (objGetD evs "type" (.str ""))
       | _ => false
     else wsInner kvs (objGetD kvs "type" (.str ""))) &&
    wsTail kvs (objGetD kvs "type" (.str ""))
  | _ => false

mutual
/-- Every `output_tokens` entry reachable anywhere inside the value is a
non-negative int (or any non-int, which the accumulator never adds as a
negative amount). -/
def nnTok : JValue → Bool
  | .null => true
  | .bool _ => true
  | .num _ => true
  | .str _ => true
  | .arr xs => nnTokList xs
  | .obj kvs =>
    (match kvs.find? (fun p => p.1 == "output_tokens") with
     | some (_, .num n) => decide (0 ≤ n)
     | _ => true) && nnTokKVs kvs

def nnTokList : List JValue → Bool
  | [] => true
  | x :: xs => nnTok x && nnTokList xs

def nnTokKVs : List (String × JValue) → Bool
  | [] => true
  | p :: ps => nnTok p.2 && nnTokKVs ps
end

/-! ### No-raise lemmas for the event parser -/

theorem addOutputTokens_ok (u : JValue) (st : PState) (h : wsUsage u = true) :
    (addOutputTokens u st).2 = none := by
  cases u with
  | obj kvs =>
    simp only [wsUsage] at h
    cases hfind : kvs.find? (fun p => p.1 == "output_tokens") with
    | none =>
      have hany : kvs.any (fun p => p.1 == "output_tokens") = false :=
        List.any_eq_false.mpr (List.find?_eq_none.mp hfind)
      simp [addOutputTokens, pyIn, hany]
    | some pr =>
      have hmem := List.mem_of_find?_eq_some hfind
      have hprop := List.find?_some hfind
      have hany : kvs.any (fun p => p.1 == "output_tokens") = true :=
        List.any_eq_true.mpr ⟨pr, hmem, hprop⟩
      rw [hfind] at h
      obtain ⟨k, v⟩ := pr
      cases v with
      | num n => simp [addOutputTokens, pyIn, hany, pyGetItem, hfind, pyAddInt]
      | bool b => simp [addOutputTokens, pyIn, hany, pyGetItem, hfind, pyAddInt]
      | null => simp at h
      | str s => simp at h
      | arr xs => simp at h
      | obj o => simp at h
  | null => simp [wsUsage] at h
  | bool b => simp [wsUsage] at h
  | num n => simp [wsUsage] at h
  | str s => simp [wsUsage] at h
  | arr xs => simp [wsUsage] at h

theorem phaseBlocks_ok (inner : List (String × JValue)) (it : JValue) (st : PState)
    (h : wsInner inner it = true) : (phaseBlocks inner it st).2 = none := by
  unfold wsInner at h
  unfold phaseBlocks
  by_cases h1 : jStrEq "content_block_start" it = true
  · rw [if_pos h1] at h ⊢
    cases hcb : objGetD inner "content_block" (.obj []) with
    | obj cb => dsimp only; (repeat' split) <;> rfl
    | null => rw [hcb] at h; simp [isObjB] at h
    | bool b => rw [hcb] at h; simp [isObjB] at h
    | num n => rw [hcb] at h; simp [isObjB] at h
    | str s => rw [hcb] at h; simp [isObjB] at h
    | arr xs => rw [hcb] at h; simp [isObjB] at h
  · rw [if_neg h1] at h ⊢
    by_cases h2 : jStrEq "content_block_delta" it = true
    · rw [if_pos h2] at h ⊢
      cases hdl : objGetD inner "delta" (.obj []) with
      | obj dl => dsimp only; (repeat' split) <;> rfl
      | null => rw [hdl] at h; simp [isObjB] at h
      | bool b => rw [hdl] at h; simp [isObjB] at h
      | num n => rw [hdl] at h; simp [isObjB] at h
      | str s => rw [hdl] at h; simp [isObjB] at h
      | arr xs => rw [hdl] at h; simp [isObjB] at h
    · rw [if_neg h2] at h ⊢
      by_cases h3 : jStrEq "content_block_stop" it = true
      · rw [if_pos h3]
      · rw [if_neg h3]
        by_cases h4 : jStrEq "message_delta" it = true
        · rw [if_pos h4] at h ⊢
          exact addOutputTokens_ok _ _ h
        · rw [if_neg h4]

theorem processBlock_ok (b : JValue) (st : PState) (h : wsBlock b = true) :
    (processBlock b st).2 = none := by
  cases b with
  | obj bl =>
    unfold wsBlock at h
    unfold processBlock
    dsimp only at h ⊢
    by_cases htu : jStrEq "tool_use" (objGetD bl "type" .null) = true
    · rw [if_pos htu] at h ⊢
      cases hname : objGetD bl "name" (.str "?") with
      | str tool_name =>
        rw [hname] at h
        dsimp only at h ⊢
        by_cases hwe : (pyLower tool_name == "write" || pyLower tool_name == "edit") = true
        · have hwer : (pyLower tool_name == "write" || pyLower tool_name == "edit"
              || pyLower tool_name == "read") = true := by
            simp only [Bool.or_eq_true] at hwe ⊢
            tauto
          rw [if_pos hwer] at h
          rw [if_pos hwe]
          cases hin : objGetD bl "input" (.obj []) with
          | obj ti =>
            rw [hin] at h
            dsimp only at h
            cases hfp : objGetD ti "file_path" (.str "?") with
            | str fp => simp [jget, hfp]
            | null => rw [hfp] at h; simp at h
            | bool bb => rw [hfp] at h; simp at h
            | num n => rw [hfp] at h; simp at h
            | arr xs => rw [hfp] at h; simp at h
            | obj o => rw [hfp] at h; simp at h
          | null => rw [hin] at h; simp at h
          | bool bb => rw [hin] at h; simp at h
          | num n => rw [hin] at h; simp at h
          | str s => rw [hin] at h; simp at h
          | arr xs => rw [hin] at h; simp at h
        · rw [if_neg hwe]
          by_cases hrd : (pyLower tool_name == "read") = true
          · have hwer : (pyLower tool_name == "write" || pyLower tool_name == "edit"
                || pyLower tool_name == "read") = true := by
              simp only [Bool.or_eq_true] at hrd ⊢
              tauto
            rw [if_pos hwer] at h
            rw [if_pos hrd]
            cases hin : objGetD bl "input" (.obj []) with
            | obj ti =>
              rw [hin] at h
              dsimp only at h
              cases hfp : objGetD ti "file_path" (.str "?") with
              | str fp => simp [jget, hfp]
              | null => rw [hfp] at h; simp at h
              | bool bb => rw [hfp] at h; simp at h
              | num n => rw [hfp] at h; simp at h
              | arr xs => rw [hfp] at h; simp at h
              | obj o => rw [hfp] at h; simp at h
            | null => rw [hin] at h; simp at h
            | bool bb => rw [hin] at h; simp at h
            | num n => rw [hin] at h; simp at h
            | str s => rw [hin] at h; simp at h
            | arr xs => rw [hin] at h; simp at h
          · have hwer : (pyLower tool_name == "write" || pyLower tool_name == "edit"
                || pyLower tool_name == "read") = false := by
              simp only [Bool.or_eq_true] at hwe hrd ⊢
              simp only [Bool.or_eq_false_iff]
              constructor
              · constructor
                · exact Bool.eq_false_iff.mpr (fun hc => hwe (Or.inl hc))
                · exact Bool.eq_false_iff.mpr (fun hc => hwe (Or.inr hc))
              · exact Bool.eq_false_iff.mpr hrd
            rw [hwer] at h
            simp only [Bool.false_eq_true, if_false] at h
            rw [if_neg hrd]
            by_cases hba : (pyLower tool_name == "bash") = true
            · rw [if_pos hba] at h ⊢
              cases hin : objGetD bl "input" (.obj []) with
              | obj ti =>
                rw [hin] at h
                dsimp only at h
                cases hcm : objGetD ti "command" (.str "?") with
                | str s => simp [jget, hcm, pySlice50]
                | arr xs => simp [jget, hcm, pySlice50]
                | null => rw [hcm] at h; simp at h
                | bool bb => rw [hcm] at h; simp at h
                | num n => rw [hcm] at h; simp at h
                | obj o => rw [hcm] at h; simp at h
              | null => rw [hin] at h; simp at h
              | bool bb => rw [hin] at h; simp at h
              | num n => rw [hin] at h; simp at h
              | str s => rw [hin] at h; simp at h
              | arr xs => rw [hin] at h; simp at h
            · rw [if_neg hba]
              split <;> rfl
      | null => rw [hname] at h; simp at h
      | bool bb => rw [hname] at h; simp at h
      | num n => rw [hname] at h; simp at h
      | arr xs => rw [hname] at h; simp at h
      | obj o => rw [hname] at h; simp at h
    · rw [if_neg htu]
  | null => simp [wsBlock] at h
  | bool bb => simp [wsBlock] at h
  | num n => simp [wsBlock] at h
  | str s => simp [wsBlock] at h
  | arr xs => simp [wsBlock] at h

theorem processBlocks_ok (bs : List JValue) :
    ∀ st : PState, (∀ b ∈ bs, wsBlock b = true) → (processBlocks bs st).2 = none := by
  induction bs with
  | nil => intro st _; rfl
  | cons b t ih =>
    intro st hall
    unfold processBlocks
    rcases hpb : processBlock b st with ⟨st1, opt⟩
    have h0 := processBlock_ok b st (hall b (by simp))
    rw [hpb] at h0
    simp only at h0
    subst h0
    exact ih st1 (fun x hx => hall x (by simp [hx]))

theorem phaseTail_ok (kvs : List (String × JValue)) (mt : JValue) (st : PState)
    (h : wsTail kvs mt = true) : (phaseTail kvs mt st).2 = none := by
  unfold wsTail at h
  unfold phaseTail
  by_cases hc : (jStrEq "assistant" mt && kvs.any (fun p => p.1 == "message")) = true
  · rw [if_pos hc] at h ⊢
    cases hmsg : objGetD kvs "message" (.obj []) with
    | obj msg =>
      rw [hmsg] at h
      dsimp only at h ⊢
      rw [Bool.and_eq_true] at h
      rcases hadd : addOutputTokens (objGetD msg "usage" (.obj [])) st with ⟨st1, opt⟩
      have h0 := addOutputTokens_ok _ st h.1
      rw [hadd] at h0
      simp only at h0
      subst h0
      dsimp only
      cases hcont : objGetD msg "content" (.arr []) with
      | arr blocks =>
        rw [hcont] at h
        dsimp only at h
        dsimp only [pyIterate]
        exact processBlocks_ok blocks st1 (List.all_eq_true.mp h.2)
      | null => rw [hcont] at h; simp at h
      | bool bb => rw [hcont] at h; simp at h
      | num n => rw [hcont] at h; simp at h
      | str s => rw [hcont] at h; simp at h
      | obj o => rw [hcont] at h; simp at h
    | null => rw [hmsg] at h; simp at h
    | bool bb => rw [hmsg] at h; simp at h
    | num n => rw [hmsg] at h; simp at h
    | str s => rw [hmsg] at h; simp at h
    | arr xs => rw [hmsg] at h; simp at h
  · rw [if_neg hc]
    split <;> rfl

theorem parseBody_ok (data : JValue) (now : Rat) (st : PState)
    (h : wellShapedLine data = true) : (parseBody data now st).2 = none := by
  cases data with
  | obj kvs =>
    simp only [wellShapedLine] at h
    rw [Bool.and_eq_true] at h
    unfold parseBody
    dsimp only
    by_cases hse : jStrEq "stream_event" (objGetD kvs "type" (.str "")) = true
    · rw [if_pos hse] at h ⊢
      cases hev : objGetD kvs "event" (.obj []) with
      | obj evs =>
        rw [hev] at h
        dsimp only at h ⊢
        rcases hpb : phaseBlocks evs (objGetD evs "type" (.str ""))
            (phaseInit kvs (objGetD kvs "type" (.str ""))
              { st with last_event_time := now }) with ⟨st3, opt⟩
        have h0 := phaseBlocks_ok evs (objGetD evs "type" (.str ""))
          (phaseInit kvs (objGetD kvs "type" (.str "")) { st with last_event_time := now }) h.1
        rw [hpb] at h0
        simp only at h0
        subst h0
        dsimp only
        exact phaseTail_ok kvs _ st3 h.2
      | null => rw [hev] at h; simp at h
      | bool bb => rw [hev] at h; simp at h
      | num n => rw [hev] at h; simp at h
      | str s => rw [hev] at h; simp at h
      | arr xs => rw [hev] at h; simp at h
    · rw [if_neg hse] at h ⊢
      dsimp only
      rcases hpb : phaseBlocks kvs (objGetD kvs "type" (.str ""))
          (phaseInit kvs (objGetD kvs "type" (.str ""))
            { st with last_event_time := now }) with ⟨st3, opt⟩
      have h0 := phaseBlocks_ok kvs (objGetD kvs "type" (.str ""))
        (phaseInit kvs (objGetD kvs "type" (.str "")) { st with last_event_time := now }) h.1
      rw [hpb] at h0
      simp only at h0
      subst h0
      dsimp only
      exact phaseTail_ok kvs _ st3 h.2
  | null => simp [wellShapedLine] at h
  | bool bb => simp [wellShapedLine] at h
  | num n => simp [wellShapedLine] at h
  | str s => simp [wellShapedLine] at h
  | arr xs => simp [wellShapedLine] at h

theorem parse_stream_line_ok (data : JValue) (now : Rat) (st : PState)
    (h : wellShapedLine data = true) : (parse_stream_line (some data) now st).2 = none := by
  unfold parse_stream_line
  dsimp only
  rcases hpb : parseBody data now st with ⟨st1, opt⟩
  have h0 := parseBody_ok data now st h
  rw [hpb] at h0
  simp only at h0
  subst h0
  rfl

/-! ### Field-effect lemmas for the event parser -/

theorem nnTokKVs_mem {kvs : List (String × JValue)} (h : nnTokKVs kvs = true) :
    ∀ p ∈ kvs, nnTok p.2 = true := by
  induction kvs with
  | nil => intro p hp; cases hp
  | cons q t ih =>
    rw [nnTokKVs, Bool.and_eq_true] at h
    intro p hp
    rcases List.mem_cons.mp hp with hq | ht
    · rw [hq]; exact h.1
    · exact ih h.2 p ht

theorem nnTok_objGetD (kvs : List (String × JValue)) (k : String) (d : JValue)
    (h : nnTok (.obj kvs) = true) (hd : nnTok d = true) :
    nnTok (objGetD kvs k d) = true := by
  rw [nnTok, Bool.and_eq_true] at h
  unfold objGetD
  cases hfind : kvs.find? (fun p => p.1 == k) with
  | none => exact hd
  | some pr => exact nnTokKVs_mem h.2 pr (List.mem_of_find?_eq_some hfind)

/-- Effect of the token-accumulation step on the fields the claims track:
tool count and timestamp untouched; the token count only grows when the
value carries non-negative deltas. -/
theorem addOutputTokens_fields (u : JValue) (st : PState) :
    (addOutputTokens u st).1.tool_calls = st.tool_calls ∧
    (addOutputTokens u st).1.last_event_time = st.last_event_time := by
  unfold addOutputTokens
  (repeat' split) <;> exact ⟨rfl, rfl⟩

theorem addOutputTokens_mono (u : JValue) (st : PState) (h : nnTok u = true) :
    st.output_tokens ≤ (addOutputTokens u st).1.output_tokens := by
  cases u with
  | obj kvs =>
    rw [nnTok, Bool.and_eq_true] at h
    unfold addOutputTokens pyIn pyGetItem
    dsimp only
    by_cases hany : (kvs.any fun p => p.1 == "output_tokens") = true
    · rw [hany]
      dsimp only
      cases hfind : kvs.find? (fun p => p.1 == "output_tokens") with
      | none => exact le_refl _
      | some pr =>
        rw [hfind] at h
        obtain ⟨h1, h2⟩ := h
        obtain ⟨k, v⟩ := pr
        cases v with
        | num n =>
          dsimp only [pyAddInt] at h1 ⊢
          rw [decide_eq_true_eq] at h1
          omega
        | bool b =>
          dsimp only [pyAddInt]
          cases b <;> simp
        | null => exact le_refl _
        | str s => exact le_refl _
        | arr xs => exact le_refl _
        | obj o => exact le_refl _
    · rw [Bool.not_eq_true] at hany
      rw [hany]
  | null => exact le_refl _
  | bool b => exact le_refl _
  | num n => exact le_refl _
  | str s =>
    unfold addOutputTokens pyIn
    dsimp only
    split <;> exact le_refl _
  | arr xs =>
    unfold addOutputTokens pyIn
    dsimp only
    split <;> exact le_refl _

theorem phaseInit_fields (kvs : List (String × JValue)) (mt : JValue) (st : PState) :
    (phaseInit kvs mt st).tool_calls = st.tool_calls ∧
    (phaseInit kvs mt st).output_tokens = st.output_tokens ∧
    (phaseInit kvs mt st).last_event_time = st.last_event_time := by
  unfold phaseInit
  dsimp only
  (repeat' split) <;> exact ⟨rfl, rfl, rfl⟩

theorem processBlock_fields (b : JValue) (st : PState) :
    st.tool_calls ≤ (processBlock b st).1.tool_calls ∧
    (processBlock b st).1.output_tokens = st.output_tokens ∧
    (processBlock b st).1.last_event_time = st.last_event_time := by
  unfold processBlock
  dsimp only
  (repeat' split) <;>
    refine ⟨?_, rfl, rfl⟩ <;> dsimp only <;> omega

theorem processBlocks_fields (bs : List JValue) :
    ∀ st : PState,
      st.tool_calls ≤ (processBlocks bs st).1.tool_calls ∧
      (processBlocks bs st).1.output_tokens = st.output_tokens ∧
      (processBlocks bs st).1.last_event_time = st.last_event_time := by
  induction bs with
  | nil => intro st; exact ⟨le_refl _, rfl, rfl⟩
  | cons b t ih =>
    intro st
    unfold processBlocks
    rcases hpb : processBlock b st with ⟨st1, opt⟩
    have hf := processBlock_fields b st
    rw [hpb] at hf
    cases opt with
    | none =>
      dsimp only
      have ht := ih st1
      exact ⟨le_trans hf.1 ht.1, by rw [ht.2.1, hf.2.1], by rw [ht.2.2, hf.2.2]⟩
    | some e => exact hf

theorem phaseBlocks_fields (inner : List (String × JValue)) (it : JValue) (st : PState) :
    (phaseBlocks inner it st).1.tool_calls = st.tool_calls ∧
    (phaseBlocks inner it st).1.last_event_time = st.last_event_time := by
  unfold phaseBlocks
  by_cases h1 : jStrEq "content_block_start" it = true
  · rw [if_pos h1]
    dsimp only
    (repeat' split) <;> exact ⟨rfl, rfl⟩
  · rw [if_neg h1]
    by_cases h2 : jStrEq "content_block_delta" it = true
    · rw [if_pos h2]
      dsimp only
      (repeat' split) <;> exact ⟨rfl, rfl⟩
    · rw [if_neg h2]
      by_cases h3 : jStrEq "content_block_stop" it = true
      · rw [if_pos h3]; exact ⟨rfl, rfl⟩
      · rw [if_neg h3]
        by_cases h4 : jStrEq "message_delta" it = true
        · rw [if_pos h4]
          exact addOutputTokens_fields _ _
        · rw [if_neg h4]; exact ⟨rfl, rfl⟩

theorem phaseBlocks_mono (inner : List (String × JValue)) (it : JValue) (st : PState)
    (h : nnTok (.obj inner) = true) :
    st.output_tokens ≤ (phaseBlocks inner it st).1.output_tokens := by
  unfold phaseBlocks
  by_cases h1 : jStrEq "content_block_start" it = true
  · rw [if_pos h1]
    dsimp only
    (repeat' split) <;> exact le_refl _
  · rw [if_neg h1]
    by_cases h2 : jStrEq "content_block_delta" it = true
    · rw [if_pos h2]
      dsimp only
      (repeat' split) <;> exact le_refl _
    · rw [if_neg h2]
      by_cases h3 : jStrEq "content_block_stop" it = true
      · rw [if_pos h3]
      · rw [if_neg h3]
        by_cases h4 : jStrEq "message_delta" it = true
        · rw [if_pos h4]
          exact addOutputTokens_mono _ _ (nnTok_objGetD inner "usage" (.obj []) h rfl)
        · rw [if_neg h4]

theorem phaseTail_fields (kvs : List (String × JValue)) (mt : JValue) (st : PState) :
    st.tool_calls ≤ (phaseTail kvs mt st).1.tool_calls ∧
    (phaseTail kvs mt st).1.last_event_time = st.last_event_time := by
  unfold phaseTail
  by_cases hc : (jStrEq "assistant" mt && kvs.any (fun p => p.1 == "message")) = true
  · rw [if_pos hc]
    cases hmsg : objGetD kvs "message" (.obj []) with
    | obj msg =>
      dsimp only
      rcases hadd : addOutputTokens (objGetD msg "usage" (.obj [])) st with ⟨st1, opt⟩
      have ha := addOutputTokens_fields (objGetD msg "usage" (.obj [])) st
      rw [hadd] at ha
      cases opt with
      | some e => exact ⟨le_of_eq ha.1.symm, ha.2⟩
      | none =>
        dsimp only
        cases hit : pyIterate (objGetD msg "content" (.arr [])) with
        | error e => exact ⟨le_of_eq ha.1.symm, ha.2⟩
        | ok blocks =>
          have hp := processBlocks_fields blocks st1
          constructor
          · calc st.tool_calls = st1.tool_calls := ha.1.symm
              _ ≤ (processBlocks blocks st1).1.tool_calls := hp.1
          · rw [hp.2.2, ha.2]
    | null => exact ⟨le_refl _, rfl⟩
    | bool bb => exact ⟨le_refl _, rfl⟩
    | num n => exact ⟨le_refl _, rfl⟩
    | str s => exact ⟨le_refl _, rfl⟩
    | arr xs => exact ⟨le_refl _, rfl⟩
  · rw [if_neg hc]
    split <;> exact ⟨le_refl _, rfl⟩

theorem phaseTail_mono (kvs : List (String × JValue)) (mt : JValue) (st : PState)
    (h : nnTok (.obj kvs) = true) :
    st.output_tokens ≤ (phaseTail kvs mt st).1.output_tokens := by
  unfold phaseTail
  by_cases hc : (jStrEq "assistant" mt && kvs.any (fun p => p.1 == "message")) = true
  · rw [if_pos hc]
    cases hmsg : objGetD kvs "message" (.obj []) with
    | obj msg =>
      dsimp only
      have hmsgnn : nnTok (JValue.obj msg) = true := by
        rw [← hmsg]
        exact nnTok_objGetD kvs "message" (.obj []) h rfl
      have husage : nnTok (objGetD msg "usage" (.obj [])) = true :=
        nnTok_objGetD msg "usage" (.obj []) hmsgnn rfl
      rcases hadd : addOutputTokens (objGetD msg "usage" (.obj [])) st with ⟨st1, opt⟩
      have ha := addOutputTokens_mono (objGetD msg "usage" (.obj [])) st husage
      rw [hadd] at ha
      cases opt with
      | some e => exact ha
      | none =>
        dsimp only
        cases hit : pyIterate (objGetD msg "content" (.arr [])) with
        | error e => exact ha
        | ok blocks =>
          have hp := processBlocks_fields blocks st1
          calc st.output_tokens ≤ st1.output_tokens := ha
            _ = (processBlocks blocks st1).1.output_tokens := hp.2.1.symm
    | null => exact le_refl _
    | bool bb => exact le_refl _
    | num n => exact le_refl _
    | str s => exact le_refl _
    | arr xs => exact le_refl _
  · rw [if_neg hc]
    split <;> exact le_refl _

/-- One parsed line never decreases the tool count, and either leaves the
liveness timestamp alone (non-dict lines, which raise before the update)
or sets it to the current clock. -/
theorem parseBody_effects (data : JValue) (now : Rat) (st : PState) :
    st.tool_calls ≤ (parseBody data now st).1.tool_calls ∧
    ((parseBody data now st).1.last_event_time = st.last_event_time ∨
     (parseBody data now st).1.last_event_time = now) := by
  cases data with
  | obj kvs =>
    unfold parseBody
    dsimp only
    by_cases hse : jStrEq "stream_event" (objGetD kvs "type" (.str "")) = true
    · rw [if_pos hse]
      cases hev : objGetD kvs "event" (.obj []) with
      | obj evs =>
        dsimp only
        rcases hpb : phaseBlocks evs (objGetD evs "type" (.str ""))
            (phaseInit kvs (objGetD kvs "type" (.str ""))
              { st with last_event_time := now }) with ⟨st3, opt⟩
        have hi := phaseInit_fields kvs (objGetD kvs "type" (.str ""))
          { st with last_event_time := now }
        have hb := phaseBlocks_fields evs (objGetD evs "type" (.str ""))
          (phaseInit kvs (objGetD kvs "type" (.str "")) { st with last_event_time := now })
        rw [hpb] at hb
        cases opt with
        | some e =>
          dsimp only
          refine ⟨le_of_eq ?_, Or.inr ?_⟩
          · rw [hb.1, hi.1]
          · rw [hb.2, hi.2.2]
        | none =>
          dsimp only
          have ht := phaseTail_fields kvs (objGetD kvs "type" (.str "")) st3
          refine ⟨?_, Or.inr ?_⟩
          · calc st.tool_calls = st3.tool_calls := by rw [hb.1, hi.1]
              _ ≤ _ := ht.1
          · rw [ht.2, hb.2, hi.2.2]
      | null => exact ⟨le_refl _, Or.inr rfl⟩
      | bool bb => exact ⟨le_refl _, Or.inr rfl⟩
      | num n => exact ⟨le_refl _, Or.inr rfl⟩
      | str s => exact ⟨le_refl _, Or.inr rfl⟩
      | arr xs => exact ⟨le_refl _, Or.inr rfl⟩
    · rw [if_neg hse]
      dsimp only
      rcases hpb : phaseBlocks kvs (objGetD kvs "type" (.str ""))
          (phaseInit kvs (objGetD kvs "type" (.str ""))
            { st with last_event_time := now }) with ⟨st3, opt⟩
      have hi := phaseInit_fields kvs (objGetD kvs "type" (.str ""))
        { st with last_event_time := now }
      have hb := phaseBlocks_fields kvs (objGetD kvs "type" (.str ""))
        (phaseInit kvs (objGetD kvs "type" (.str "")) { st with last_event_time := now })
      rw [hpb] at hb
      cases opt with
      | some e =>
        dsimp only
        refine ⟨le_of_eq ?_, Or.inr ?_⟩
        · rw [hb.1, hi.1]
        · rw [hb.2, hi.2.2]
      | none =>
        dsimp only
        have ht := phaseTail_fields kvs (objGetD kvs "type" (.str "")) st3
        refine ⟨?_, Or.inr ?_⟩
        · calc st.tool_calls = st3.tool_calls := by rw [hb.1, hi.1]
            _ ≤ _ := ht.1
        · rw [ht.2, hb.2, hi.2.2]
  | null => exact ⟨le_refl _, Or.inl rfl⟩
  | bool bb => exact ⟨le_refl _, Or.inl rfl⟩
  | num n => exact ⟨le_refl _, Or.inl rfl⟩
  | str s => exact ⟨le_refl _, Or.inl rfl⟩
  | arr xs => exact ⟨le_refl _, Or.inl rfl⟩

/-- One parsed line whose reachable `output_tokens` deltas are all
non-negative never decreases the token count. -/
theorem parseBody_output_mono (data : JValue) (now : Rat) (st : PState)
    (h : nnTok data = true) :
    st.output_tokens ≤ (parseBody data now st).1.output_tokens := by
  cases data with
  | obj kvs =>
    unfold parseBody
    dsimp only
    by_cases hse : jStrEq "stream_event" (objGetD kvs "type" (.str "")) = true
    · rw [if_pos hse]
      cases hev : objGetD kvs "event" (.obj []) with
      | obj evs =>
        dsimp only
        have hevnn : nnTok (JValue.obj evs) = true := by
          rw [← hev]
          exact nnTok_objGetD kvs "event" (.obj []) h rfl
        rcases hpb : phaseBlocks evs (objGetD evs "type" (.str ""))
            (phaseInit kvs (objGetD kvs "type" (.str ""))
              { st with last_event_time := now }) with ⟨st3, opt⟩
        have hi := phaseInit_fields kvs (objGetD kvs "type" (.str ""))
          { st with last_event_time := now }
        have hb := phaseBlocks_mono evs (objGetD evs "type" (.str ""))
          (phaseInit kvs (objGetD kvs "type" (.str "")) { st with last_event_time := now })
          hevnn
        rw [hpb] at hb
        cases opt with
        | some e =>
          dsimp only
          calc st.output_tokens
              = (phaseInit kvs (objGetD kvs "type" (.str ""))
                  { st with last_event_time := now }).output_tokens := hi.2.1.symm
            _ ≤ st3.output_tokens := hb
        | none =>
          dsimp only
          have ht := phaseTail_mono kvs (objGetD kvs "type" (.str "")) st3 h
          calc st.output_tokens
              = (phaseInit kvs (objGetD kvs "type" (.str ""))
                  { st with last_event_time := now }).output_tokens := hi.2.1.symm
            _ ≤ st3.output_tokens := hb
            _ ≤ _ := ht
      | null => exact le_refl _
      | bool bb => exact le_refl _
      | num n => exact le_refl _
      | str s => exact le_refl _
      | arr xs => exact le_refl _
    · rw [if_neg hse]
      dsimp only
      rcases hpb : phaseBlocks kvs (objGetD kvs "type" (.str ""))
          (phaseInit kvs (objGetD kvs "type" (.str ""))
            { st with last_event_time := now }) with ⟨st3, opt⟩
      have hi := phaseInit_fields kvs (objGetD kvs "type" (.str ""))
        { st with last_event_time := now }
      have hb := phaseBlocks_mono kvs (objGetD kvs "type" (.str ""))
        (phaseInit kvs (objGetD kvs "type" (.str "")) { st with last_event_time := now }) h
      rw [hpb] at hb
      cases opt with
      | some e =>
        dsimp only
        calc st.output_tokens
            = (phaseInit kvs (objGetD kvs "type" (.str ""))
                { st with last_event_time := now }).output_tokens := hi.2.1.symm
          _ ≤ st3.output_tokens := hb
      | none =>
        dsimp only
        have ht := phaseTail_mono kvs (objGetD kvs "type" (.str "")) st3 h
        calc st.output_tokens
            = (phaseInit kvs (objGetD kvs "type" (.str ""))
                { st with last_event_time := now }).output_tokens := hi.2.1.symm
          _ ≤ st3.output_tokens := hb
          _ ≤ _ := ht
  | null => exact le_refl _
  | bool bb => exact le_refl _
  | num n => exact le_refl _
  | str s => exact le_refl _
  | arr xs => exact le_refl _

/-- The state `parse_stream_line` leaves behind is exactly the body's
state: the outer `except` only decides whether an exception escapes. -/
theorem parse_stream_line_state (data : JValue) (now : Rat) (st : PState) :
    (parse_stream_line (some data) now st).1 = (parseBody data now st).1 := by
  unfold parse_stream_line
  dsimp only
  rcases hpb : parseBody data now st with ⟨st1, opt⟩
  cases opt with
  | none => rfl
  | some e => cases e <;> rfl

theorem parse_stream_line_tool (l : Option JValue) (now : Rat) (st : PState) :
    st.tool_calls ≤ (parse_stream_line l now st).1.tool_calls := by
  cases l with
  | none => exact le_refl _
  | some data =>
    rw [parse_stream_line_state]
    exact (parseBody_effects data now st).1

theorem parse_stream_line_last (l : Option JValue) (now : Rat) (st : PState) :
    (parse_stream_line l now st).1.last_event_time = st.last_event_time ∨
    (parse_stream_line l now st).1.last_event_time = now := by
  cases l with
  | none => exact Or.inl rfl
  | some data =>
    rw [parse_stream_line_state]
    exact (parseBody_effects data now st).2

theorem parse_stream_line_output (l : Option JValue) (now : Rat) (st : PState)
    (h : ∀ d, l = some d → nnTok d = true) :
    st.output_tokens ≤ (parse_stream_line l now st).1.output_tokens := by
  cases l with
  | none => exact le_refl _
  | some data =>
    rw [parse_stream_line_state]
    exact parseBody_output_mono data now st (h data rfl)

/-! ### Sequence lemmas for the reader-thread fold -/

theorem parseStates_head : ∀ (trace : List (Option JValue × Rat)) (st : PState),
    (parseStates trace st).head? = some st := by
  intro trace st
  cases trace with
  | nil => rfl
  | cons p rest => rfl

theorem parseStates_chain_tool :
    ∀ (trace : List (Option JValue × Rat)) (st : PState),
      List.Chain' (fun a b => a.tool_calls ≤ b.tool_calls) (parseStates trace st) := by
  intro trace
  induction trace with
  | nil => intro st; simp [parseStates]
  | cons p rest ih =>
    intro st
    rw [parseStates]
    refine List.chain'_cons'.mpr ⟨?_, ih _⟩
    intro y hy
    rw [parseStates_head] at hy
    cases hy
    exact parse_stream_line_tool p.1 p.2 st

theorem parseStates_chain_output :
    ∀ (trace : List (Option JValue × Rat)) (st : PState),
      (∀ p ∈ trace, ∀ d, p.1 = some d → nnTok d = true) →
      List.Chain' (fun a b => a.output_tokens ≤ b.output_tokens) (parseStates trace st) := by
  intro trace
  induction trace with
  | nil => intro st _; simp [parseStates]
  | cons p rest ih =>
    intro st hnn
    rw [parseStates]
    refine List.chain'_cons'.mpr ⟨?_, ih _ (fun q hq => hnn q (by simp [hq]))⟩
    intro y hy
    rw [parseStates_head] at hy
    cases hy
    exact parse_stream_line_output p.1 p.2 st (hnn p (by simp))

theorem parseStates_chain_time :
    ∀ (trace : List (Option JValue × Rat)) (st : PState),
      List.Chain' (· ≤ ·) (st.last_event_time :: trace.map Prod.snd) →
      List.Chain' (fun a b => a.last_event_time ≤ b.last_event_time)
        (parseStates trace st) := by
  intro trace
  induction trace with
  | nil => intro st _; simp [parseStates]
  | cons p rest ih =>
    intro st hch
    rw [List.map_cons] at hch
    have hhead : st.last_event_time ≤ p.2 :=
      (List.chain'_cons'.mp hch).1 p.2 rfl
    have htail : List.Chain' (· ≤ ·) (p.2 :: rest.map Prod.snd) :=
      (List.chain'_cons'.mp hch).2
    rw [parseStates]
    have hstep := parse_stream_line_last p.1 p.2 st
    have hle : st.last_event_time ≤ (parse_stream_line p.1 p.2 st).1.last_event_time := by
      rcases hstep with hl | hl
      · rw [hl]
      · rw [hl]; exact hhead
    refine List.chain'_cons'.mpr ⟨?_, ?_⟩
    · intro y hy
      rw [parseStates_head] at hy
      cases hy
      exact hle
    · refine ih _ ?_
      have hup : (parse_stream_line p.1 p.2 st).1.last_event_time ≤ p.2 := by
        rcases hstep with hl | hl
        · rw [hl]; exact hhead
        · rw [hl]
      refine List.chain'_cons'.mpr ⟨?_, htail.tail⟩
      intro y hy
      rcases List.chain'_cons'.mp htail with ⟨hrel, _⟩
      exact le_trans hup (hrel y hy)

theorem parseStates_mem_nonneg_tool :
    ∀ (trace : List (Option JValue × Rat)) (st : PState), 0 ≤ st.tool_calls →
      ∀ s ∈ parseStates trace st, 0 ≤ s.tool_calls := by
  intro trace
  induction trace with
  | nil =>
    intro st h0 s hs
    rw [parseStates] at hs
    rcases List.mem_singleton.mp hs with rfl
    exact h0
  | cons p rest ih =>
    intro st h0 s hs
    rw [parseStates] at hs
    rcases List.mem_cons.mp hs with rfl | hs
    · exact h0
    · exact ih _ (le_trans h0 (parse_stream_line_tool p.1 p.2 st)) s hs

theorem parseStates_mem_nonneg_output :
    ∀ (trace : List (Option JValue × Rat)) (st : PState), 0 ≤ st.output_tokens →
      (∀ p ∈ trace, ∀ d, p.1 = some d → nnTok d = true) →
      ∀ s ∈ parseStates trace st, 0 ≤ s.output_tokens := by
  intro trace
  induction trace with
  | nil =>
    intro st h0 _ s hs
    rw [parseStates] at hs
    rcases List.mem_singleton.mp hs with rfl
    exact h0
  | cons p rest ih =>
    intro st h0 hnn s hs
    rw [parseStates] at hs
    rcases List.mem_cons.mp hs with rfl | hs
    · exact h0
    · exact ih _
        (le_trans h0 (parse_stream_line_output p.1 p.2 st (hnn p (by simp))))
        (fun q hq => hnn q (by simp [hq])) s hs

/-! ### Claim theorems -/

/-- C1 counterexample: the line `42` is well-formed JSON, yet
`parse_stream_line` raises `AttributeError` (`int` has no `.get`): only
`json.JSONDecodeError` and `KeyError` are caught, so the claim that no
call ever raises is false. -/
theorem parser_raises_on_nonobject_json_line :
    (parse_stream_line (some (.num 42)) 1 (init_state 0)).2
      = some PyErr.attributeError := by decide

/-- C1 (amended): lines that are not valid JSON never raise, well-shaped
JSON-object lines never raise, and — for every sequence of lines
whatsoever, raising or not — the last-observed-event timestamp is
monotonically non-decreasing provided the clock readings are
non-decreasing. -/
theorem parser_no_raise_on_wellformed_and_time_monotone :
    (∀ (now : Rat) (st : PState), parse_stream_line none now st = (st, none)) ∧
    (∀ (data : JValue) (now : Rat) (st : PState), wellShapedLine data = true →
      (parse_stream_line (some data) now st).2 = none) ∧
    (∀ (trace : List (Option JValue × Rat)) (st0 : PState),
      List.Chain' (· ≤ ·) (st0.last_event_time :: trace.map Prod.snd) →
      List.Chain' (fun a b => a.last_event_time ≤ b.last_event_time)
        (parseStates trace st0)) :=
  ⟨fun _ _ => rfl,
   fun data now st h => parse_stream_line_ok data now st h,
   fun trace st0 h => parseStates_chain_time trace st0 h⟩

/-- A realistic assistant event used as concrete input for the C1
witness. -/
def wsExampleLine : JValue :=
  .obj [("type", .str "assistant"),
        ("message", .obj
          [("usage", .obj [("output_tokens", .num 7)]),
           ("content", .arr
             [.obj [("type", .str "tool_use"), ("name", .str "Write"),
                    ("input", .obj [("file_path", .str "/tmp/demo/out.txt")])],
              .obj [("type", .str "text"), ("text", .str "done")]])])]

theorem parser_no_raise_witness :
    wellShapedLine wsExampleLine = true ∧
    (parse_stream_line (some wsExampleLine) 2 (init_state 0)).2 = none ∧
    List.Chain' (· ≤ ·)
      ((init_state 0).last_event_time
        :: ([(some wsExampleLine, (1 : Rat)), (none, 2)].map Prod.snd)) ∧
    List.Chain' (fun a b => a.last_event_time ≤ b.last_event_time)
      (parseStates [(some wsExampleLine, 1), (none, 2)] (init_state 0)) :=
  ⟨by decide,
   parser_no_raise_on_wellformed_and_time_monotone.2.1 wsExampleLine 2 (init_state 0)
     (by decide),
   by norm_num [init_state, List.chain'_cons, List.chain'_singleton],
   parser_no_raise_on_wellformed_and_time_monotone.2.2
     [(some wsExampleLine, 1), (none, 2)] (init_state 0)
     (by norm_num [init_state, List.chain'_cons, List.chain'_singleton])⟩

/-- C2: whenever the subprocess is still running when elapsed time
reaches the timeout, the loop sets the timeout flag, runs the graceful
kill (SIGTERM first; SIGKILL exactly when the process ignores the grace
period), and the outcome classification is "timeout" regardless of the
captured exit code — never "failed". -/
theorem timeout_graceful_kill_classified :
    ∀ (timeout fuel : Nat) (pollAt : Nat → Option Int) (tg hb : Bool),
      (∀ e, pollAt e = none) → 0 < timeout → timeout ≤ 5 * fuel →
      (mainLoop timeout hb pollAt tg fuel initLoopState).timed_out = true ∧
      (mainLoop timeout hb pollAt tg fuel initLoopState).killActions
        = kill_process_graceful tg ∧
      (mainLoop timeout hb pollAt tg fuel initLoopState).killActions.head?
        = some KillAction.sigterm ∧
      (KillAction.sigkill ∈ (mainLoop timeout hb pollAt tg fuel initLoopState).killActions
        ↔ tg = false) ∧
      (∀ c : Int,
        session_status (mainLoop timeout hb pollAt tg fuel initLoopState).timed_out c
          = "timeout") ∧
      (∀ c : Int,
        session_status (mainLoop timeout hb pollAt tg fuel initLoopState).timed_out c
          ≠ "failed") := by
  intro timeout fuel pollAt tg hb hrun hpos hfuel
  obtain ⟨h1, h2⟩ := mainLoop_timeout_aux timeout hb pollAt tg hrun fuel initLoopState
    rfl hpos (show timeout ≤ 0 + 5 * fuel by omega)
  refine ⟨h1, h2, ?_, ?_, ?_, ?_⟩
  · rw [h2]; unfold kill_process_graceful; cases tg <;> rfl
  · rw [h2]; unfold kill_process_graceful; cases tg <;> simp
  · intro c; rw [h1]; rfl
  · intro c
    rw [h1]
    intro hc
    rw [show session_status true c = "timeout" from rfl] at hc
    exact absurd hc (by decide)

theorem timeout_graceful_kill_witness :
    (∀ e, (fun _ : Nat => (none : Option Int)) e = none) ∧ 0 < 7 ∧ 7 ≤ 5 * 2 ∧
    ((mainLoop 7 true (fun _ => none) false 2 initLoopState).timed_out = true ∧
     (mainLoop 7 true (fun _ => none) false 2 initLoopState).killActions
       = kill_process_graceful false ∧
     (mainLoop 7 true (fun _ => none) false 2 initLoopState).killActions.head?
       = some KillAction.sigterm ∧
     (KillAction.sigkill ∈ (mainLoop 7 true (fun _ => none) false 2 initLoopState).killActions
       ↔ false = false) ∧
     (∀ c : Int,
       session_status (mainLoop 7 true (fun _ => none) false 2 initLoopState).timed_out c
         = "timeout") ∧
     (∀ c : Int,
       session_status (mainLoop 7 true (fun _ => none) false 2 initLoopState).timed_out c
         ≠ "failed")) :=
  ⟨fun _ => rfl, by decide, by decide,
   timeout_graceful_kill_classified 7 2 (fun _ => none) false true
     (fun _ => rfl) (by decide) (by decide)⟩

/-- The process model of the simulated 185-second run: the subprocess is
alive strictly before 185 seconds of elapsed time and has exited with
code 0 from then on. -/
def poll185 : Nat → Option Int := fun e => if 185 ≤ e then some 0 else none

/-- C6: in the idealized-time model of a 185-second run with the default
7200-second timeout, a notification group extracted from the session key
and a loaded auth token, exactly the heartbeats at 60, 120 and 180
seconds elapsed are emitted, and the run then observes the natural exit. -/
theorem heartbeat_cadence_185s :
    (mainLoop 7200
        (optTruthy (extract_group_jid (some "agent:main:12345@g.us:whatsapp"))
          && optTruthy (some "secret-token"))
        poll185 true 100 initLoopState).heartbeats = [60, 120, 180] ∧
    (mainLoop 7200
        (optTruthy (extract_group_jid (some "agent:main:12345@g.us:whatsapp"))
          && optTruthy (some "secret-token"))
        poll185 true 100 initLoopState).heartbeats.length = 3 ∧
    (mainLoop 7200
        (optTruthy (extract_group_jid (some "agent:main:12345@g.us:whatsapp"))
          && optTruthy (some "secret-token"))
        poll185 true 100 initLoopState).timed_out = false ∧
    (mainLoop 7200
        (optTruthy (extract_group_jid (some "agent:main:12345@g.us:whatsapp"))
          && optTruthy (some "secret-token"))
        poll185 true 100 initLoopState).exit_code = some 0 := by decide

/-- C10: when the session key yields no group JID, or the auth token
could not be loaded, the heartbeat condition is permanently false: no
heartbeat is ever emitted (no message is sent, for any concurrent state
snapshot), while the run's control-flow outcome is exactly the outcome
it would have with heartbeats enabled. -/
theorem no_heartbeats_without_jid_or_token :
    ∀ (sk token : Option String) (timeout fuel : Nat) (pollAt : Nat → Option Int)
      (tg : Bool) (snapshot : Nat → PState),
      (extract_group_jid sk = none ∨ token = none) →
      (mainLoop timeout (optTruthy (extract_group_jid sk) && optTruthy token)
          pollAt tg fuel initLoopState).heartbeats = [] ∧
      heartbeat_messages snapshot
        (mainLoop timeout (optTruthy (extract_group_jid sk) && optTruthy token)
          pollAt tg fuel initLoopState).heartbeats = [] ∧
      loopOutcome (mainLoop timeout (optTruthy (extract_group_jid sk) && optTruthy token)
          pollAt tg fuel initLoopState)
        = loopOutcome (mainLoop timeout true pollAt tg fuel initLoopState) := by
  intro sk token timeout fuel pollAt tg snapshot h
  have hhb : (optTruthy (extract_group_jid sk) && optTruthy token) = false := by
    rcases h with h | h
    · rw [h]; rfl
    · rw [h]; simp [optTruthy]
  rw [hhb]
  have hempty := mainLoop_no_hb timeout pollAt tg fuel initLoopState
  refine ⟨hempty, by rw [hempty]; rfl, ?_⟩
  exact mainLoop_outcome_indep timeout pollAt tg false true fuel 0 0 0 false [] [] [] none

theorem no_heartbeats_witness :
    (extract_group_jid (some "agent:main") = none ∨ (some "tok" : Option String) = none) ∧
    ((mainLoop 20 (optTruthy (extract_group_jid (some "agent:main")) && optTruthy (some "tok"))
        (fun _ => none) true 10 initLoopState).heartbeats = [] ∧
     heartbeat_messages (fun _ => init_state 0)
       (mainLoop 20 (optTruthy (extract_group_jid (some "agent:main")) && optTruthy (some "tok"))
         (fun _ => none) true 10 initLoopState).heartbeats = [] ∧
     loopOutcome (mainLoop 20
         (optTruthy (extract_group_jid (some "agent:main")) && optTruthy (some "tok"))
         (fun _ => none) true 10 initLoopState)
       = loopOutcome (mainLoop 20 true (fun _ => none) true 10 initLoopState)) :=
  ⟨Or.inl (by decide),
   no_heartbeats_without_jid_or_token (some "agent:main") (some "tok") 20 10
     (fun _ => none) true (fun _ => init_state 0) (Or.inl (by decide))⟩

/-- C3 counterexample: with two terminal-result events the extraction
returns the FIRST one's result field (the loop breaks at the first
match), not the last one's as the claim states. -/
theorem reconciler_takes_first_not_last_result :
    extract_final_text
      [some (.obj [("type", .str "result"), ("result", .str "first")]),
       some (.obj [("type", .str "result"), ("result", .str "last")])] ""
      = .ok (.str "first") ∧
    (Except.ok (JValue.str "first") : Except PyErr JValue) ≠ .ok (.str "last") := by
  refine ⟨rfl, ?_⟩
  intro hc
  rw [Except.ok.injEq, JValue.str.injEq] at hc
  exact absurd hc (by decide)

/-- C3 (amended): the extracted final text equals the result field of the
FIRST terminal-result event, whenever that field is a non-empty string
(so it takes precedence over any assistant fragments); earlier lines may
be arbitrary unparseable lines or non-result objects. -/
theorem reconciler_first_result_wins :
    ∀ (pre post : List (Option JValue)) (kvs : List (String × JValue)) (r stderr : String),
      (∀ l ∈ pre, tier1Skips l = true) →
      jStrEq "result" (objGetD kvs "type" .null) = true →
      objGetD kvs "result" (.str "") = .str r →
      r ≠ "" →
      extract_final_text (pre ++ some (.obj kvs) :: post) stderr = .ok (.str r) := by
  intro pre post kvs r stderr hpre hty hres hne
  have h1 : tier1 (pre ++ some (.obj kvs) :: post) = .ok (.str r) := by
    rw [tier1_append pre _ hpre, tier1_result_head kvs post hty, hres]
  unfold extract_final_text
  rw [h1]
  have ht : pyTruthy (.str r) = true := (pyTruthy_str_iff r).mpr hne
  dsimp only
  rw [if_pos ht]
  dsimp only
  rw [if_pos ht]

theorem reconciler_first_result_witness :
    (∀ l ∈ ([none] : List (Option JValue)), tier1Skips l = true) ∧
    jStrEq "result" (objGetD [("type", JValue.str "result"), ("result", .str "Done.")]
      "type" .null) = true ∧
    ("Done." : String) ≠ "" ∧
    extract_final_text
      ([none] ++ some (.obj [("type", .str "result"), ("result", .str "Done.")]) :: [])
      "some stderr" = .ok (.str "Done.") :=
  ⟨by decide, by decide, by decide,
   reconciler_first_result_wins [none] []
     [("type", .str "result"), ("result", .str "Done.")] "Done." "some stderr"
     (by decide) (by decide) rfl (by decide)⟩

/-- The captured stream of the C4 scenario: two assistant-turn events
carrying the text fragments "Hello " and "world", no terminal-result
event. -/
def helloStream : List (Option JValue) :=
  [some (.obj [("type", .str "assistant"),
               ("message", .obj [("content",
                  .arr [.obj [("type", .str "text"), ("text", .str "Hello ")]])])]),
   some (.obj [("type", .str "assistant"),
               ("message", .obj [("content",
                  .arr [.obj [("type", .str "text"), ("text", .str "world")]])])])]

/-- C4 counterexample: the tier-2 fallback appends "\n" after every text
fragment, so the extracted text is "Hello \nworld\n", not the claimed
"Hello world\n". -/
theorem fragments_not_plain_concatenation :
    extract_final_text helloStream "" = .ok (.str "Hello \nworld\n") ∧
    (JValue.str "Hello \nworld\n") ≠ .str "Hello world\n" := by
  refine ⟨rfl, ?_⟩
  intro hc
  rw [JValue.str.injEq] at hc
  exact absurd hc (by decide)

/-- C4 (amended): with no terminal-result event and the fragments
"Hello " then "world", the extracted text is "Hello \nworld\n" — the
fragments in arrival order, each with a newline appended. -/
theorem fragments_joined_with_newlines :
    extract_final_text helloStream "" = .ok (.str "Hello \nworld\n") := rfl

/-- The captured stream of the C9 scenario: a terminal-result event whose
result field is the empty string, followed by an assistant text
fragment. -/
def emptyResultStream : List (Option JValue) :=
  [some (.obj [("type", .str "result"), ("result", .str "")]),
   some (.obj [("type", .str "assistant"),
               ("message", .obj [("content",
                  .arr [.obj [("type", .str "text"), ("text", .str "Hi.")]])])])]

/-- C9 counterexample: the empty-string terminal-result text is NOT
preferred — `if not final_text` is a truthiness check, so the extraction
falls through to the assistant fragments and returns "Hi.\n", not "". -/
theorem empty_result_not_preferred :
    extract_final_text emptyResultStream "" = .ok (.str "Hi.\n") ∧
    (JValue.str "Hi.\n") ≠ .str "" := by
  refine ⟨rfl, ?_⟩
  intro hc
  rw [JValue.str.injEq] at hc
  exact absurd hc (by decide)

/-- C9 (amended): the terminal-result text is preferred only when
truthy; an empty-string result field falls through to the later tiers,
and the extracted final text is never the empty string, for any captured
stream and any error stream. -/
theorem empty_result_falls_through :
    (∀ (lines : List (Option JValue)) (stderr : String),
       extract_final_text lines stderr ≠ .ok (.str "")) ∧
    extract_final_text emptyResultStream "" = .ok (.str "Hi.\n") :=
  ⟨extract_final_text_ne_empty, rfl⟩

theorem empty_result_falls_through_witness :
    extract_final_text emptyResultStream "" ≠ .ok (.str "") :=
  empty_result_falls_through.1 emptyResultStream ""

/-- C5 counterexample: a resume run whose error stream carries the
not-found marker but that was started without a session key sends ZERO
resume-failure notifications, contradicting "exactly one ... is sent". -/
def c5cfgNoChannel : PostConfig :=
  { resume := some "abc123def", session := none, token := none, group_jid := none,
    stderr_output := "Error: No conversation found with session ID abc123def",
    output_lines := [], timed_out := false, exit_code := 1,
    session_id := some (.str "sess-1") }

theorem resume_failure_notification_needs_channel :
    (post_run c5cfgNoChannel).resume_failure_notifications = 0 ∧
    (post_run c5cfgNoChannel).registry_written = false ∧
    (0 : Nat) ≠ 1 := by decide

/-- C5 (amended): a resume run whose error stream contains the not-found
marker always short-circuits — no extraction, no registry write, no
result file — and sends exactly one resume-failure notification when a
session key, auth token and group JID are all available, none otherwise. -/
theorem resume_not_found_short_circuit :
    ∀ cfg : PostConfig,
      optTruthy cfg.resume = true →
      strContains cfg.stderr_output "No conversation found" = true →
      (post_run cfg).extraction_done = false ∧
      (post_run cfg).registry_written = false ∧
      (post_run cfg).final_text = none ∧
      (post_run cfg).crashed = false ∧
      (post_run cfg).resume_failure_notifications
        = (if optTruthy cfg.session && optTruthy cfg.token && optTruthy cfg.group_jid
           then 1 else 0) ∧
      (post_run cfg).resume_failure_notifications ≤ 1 := by
  intro cfg hres hmark
  have hne : (cfg.stderr_output != "") = true := by
    rw [bne_iff_ne]
    intro h
    rw [h] at hmark
    exact absurd hmark (by decide)
  unfold post_run
  rw [hres, hne, hmark]
  refine ⟨rfl, rfl, rfl, rfl, rfl, ?_⟩
  show (if optTruthy cfg.session && optTruthy cfg.token && optTruthy cfg.group_jid
        then 1 else 0) ≤ 1
  split <;> omega

def c5cfgFull : PostConfig :=
  { resume := some "abc123def", session := some "agent:main:77@g.us:whatsapp",
    token := some "secret-token", group_jid := some "77@g.us",
    stderr_output := "No conversation found", output_lines := [], timed_out := false,
    exit_code := 0, session_id := none }

theorem resume_short_circuit_witness :
    optTruthy c5cfgFull.resume = true ∧
    strContains c5cfgFull.stderr_output "No conversation found" = true ∧
    ((post_run c5cfgFull).extraction_done = false ∧
     (post_run c5cfgFull).registry_written = false ∧
     (post_run c5cfgFull).final_text = none ∧
     (post_run c5cfgFull).crashed = false ∧
     (post_run c5cfgFull).resume_failure_notifications
       = (if optTruthy c5cfgFull.session && optTruthy c5cfgFull.token
            && optTruthy c5cfgFull.group_jid then 1 else 0) ∧
     (post_run c5cfgFull).resume_failure_notifications ≤ 1) :=
  ⟨by decide, by decide,
   resume_not_found_short_circuit c5cfgFull (by decide) (by decide)⟩

/-- C7 counterexample: a `message_delta` event with a negative
`output_tokens` usage drives the accumulated token count below zero —
the count both decreases and goes negative. -/
def negTokenLine : JValue :=
  .obj [("type", .str "message_delta"), ("usage", .obj [("output_tokens", .num (-5))])]

theorem negative_usage_decreases_output_tokens :
    (parse_stream_line (some negTokenLine) 1 (init_state 0)).1.output_tokens = -5 ∧
    (parse_stream_line (some negTokenLine) 1 (init_state 0)).1.output_tokens
      < (init_state 0).output_tokens := by decide

/-- C7 (amended): starting from the initial state, the tool-invocation
count is non-negative and never decreases across ANY sequence of event
lines; the output-token count is non-negative and never decreases
provided every parsed line carries only non-negative `output_tokens`
deltas. -/
theorem counts_monotone_nonneg :
    (∀ (trace : List (Option JValue × Rat)) (t0 : Rat),
       List.Chain' (fun a b => a.tool_calls ≤ b.tool_calls)
         (parseStates trace (init_state t0)) ∧
       ∀ s ∈ parseStates trace (init_state t0), 0 ≤ s.tool_calls) ∧
    (∀ (trace : List (Option JValue × Rat)) (t0 : Rat),
       (∀ p ∈ trace, ∀ d, p.1 = some d → nnTok d = true) →
       List.Chain' (fun a b => a.output_tokens ≤ b.output_tokens)
         (parseStates trace (init_state t0)) ∧
       ∀ s ∈ parseStates trace (init_state t0), 0 ≤ s.output_tokens) :=
  ⟨fun trace t0 =>
     ⟨parseStates_chain_tool trace (init_state t0),
      parseStates_mem_nonneg_tool trace (init_state t0) (le_refl 0)⟩,
   fun trace t0 h =>
     ⟨parseStates_chain_output trace (init_state t0) h,
      parseStates_mem_nonneg_output trace (init_state t0) (le_refl 0) h⟩⟩

/-- A positive-usage event line for the C7 witness. -/
def posTokenLine : JValue :=
  .obj [("type", .str "message_delta"), ("usage", .obj [("output_tokens", .num 7)])]

theorem counts_monotone_witness :
    (∀ p ∈ [((some posTokenLine : Option JValue), (1 : Rat))],
       ∀ d, p.1 = some d → nnTok d = true) ∧
    (List.Chain' (fun a b => a.output_tokens ≤ b.output_tokens)
       (parseStates [(some posTokenLine, 1)] (init_state 0)) ∧
     ∀ s ∈ parseStates [(some posTokenLine, 1)] (init_state 0), 0 ≤ s.output_tokens) := by
  have hnn : ∀ p ∈ [((some posTokenLine : Option JValue), (1 : Rat))],
      ∀ d, p.1 = some d → nnTok d = true := by
    intro p hp d hd
    rcases List.mem_singleton.mp hp with rfl
    injection hd with hd1
    rw [← hd1]
    decide
  exact ⟨hnn, counts_monotone_nonneg.2 [(some posTokenLine, 1)] 0 hnn⟩

/-- C8: the token-count formatter renders the four quoted examples
exactly; in general non-negative counts below 1000 are rendered raw,
counts of 10000 and above as truncated thousands with a "K" suffix, and
counts in between as one decimal digit in thousands with a "K" suffix,
the rendered value lying within 0.05 thousands of the exact quotient. -/
theorem format_tokens_spec :
    format_tokens 0 = "0" ∧ format_tokens 999 = "999" ∧
    format_tokens 1500 = "1.5K" ∧ format_tokens 12345 = "12K" ∧
    (∀ n : Int, 0 ≤ n → n < 1000 → format_tokens n = toString n) ∧
    (∀ n : Int, 10000 ≤ n → format_tokens n = toString (n / 1000) ++ "K") ∧
    (∀ n : Nat, 1000 ≤ n → n < 10000 →
      ∃ t : Nat, format_tokens (n : Int)
          = toString (t / 10) ++ "." ++ toString (t % 10) ++ "K" ∧
        (t : Int) * 100 - (n : Int) ≤ 50 ∧ (n : Int) - (t : Int) * 100 ≤ 50) := by
  refine ⟨by decide, by decide, by decide, by decide, ?_, ?_, ?_⟩
  · intro n _h0 h1
    unfold format_tokens
    rw [if_pos h1]
  · intro n h
    unfold format_tokens
    rw [if_neg (by omega), if_neg (by omega)]
  · intro n h1 h2
    refine ⟨tenths n, ?_, ?_, ?_⟩
    · unfold format_tokens
      rw [if_neg (by omega), if_pos (by omega)]
      have hcast : ((n : Int)).toNat = n := Int.toNat_natCast n
      rw [hcast]
      rfl
    · have := tenths_close n h1 h2
      omega
    · have := tenths_close n h1 h2
      omega

theorem format_tokens_witness :
    ((0 : Int) ≤ 500 ∧ (500 : Int) < 1000 ∧ format_tokens 500 = toString (500 : Int)) ∧
    ((10000 : Int) ≤ 45000 ∧ format_tokens 45000 = toString ((45000 : Int) / 1000) ++ "K") ∧
    (1000 ≤ 2500 ∧ 2500 < 10000 ∧
      ∃ t : Nat, format_tokens ((2500 : Nat) : Int)
          = toString (t / 10) ++ "." ++ toString (t % 10) ++ "K" ∧
        (t : Int) * 100 - (2500 : Int) ≤ 50 ∧ (2500 : Int) - (t : Int) * 100 ≤ 50) :=
  ⟨⟨by decide, by decide, format_tokens_spec.2.2.2.2.1 500 (by decide) (by decide)⟩,
   ⟨by decide, format_tokens_spec.2.2.2.2.2.1 45000 (by decide)⟩,
   ⟨by decide, by decide, format_tokens_spec.2.2.2.2.2.2 2500 (by decide) (by decide)⟩⟩

end RunTask
